import Mathlib

/-!
# libdill `proc.c`: process handles

A shallow embedding of `src/proc.c` (`dill_proc_close`, `dill_proc_wait`,
`dill_proc_prologue`).  The C functions talk to the operating system and to the
rest of the runtime (`kill`, `waitpid`, `waitid`, `now`, `msleep`, `malloc`,
`dill_handle`, `dill_fork`, `hclose`).  Those collaborators are a record of
functions `Sys W` over an arbitrary world type `W`; every call made by the code
is appended, with the values it returned, to a trace kept in the machine state,
so that "which calls happened, in which order" is a statement about a list.

C integers (`int`, `pid_t`, `int64_t`) are `Int`.  The only arithmetic in the
file is `now() + 100`, which cannot overflow an `int64_t` for any clock value a
running system produces, so no wrap-around is modelled.
-/

namespace Dill

/-! ## Constants (Linux values) -/

def SIGKILL : Int := 9
def ESRCH : Int := 3
def EBADF : Int := 9
def ECHILD : Int := 10
def ENOMEM : Int := 12
def ETIMEDOUT : Int := 110
def ECANCELED : Int := 125

/-! ## Data model -/

/-- The record behind a process handle: `struct dill_proc { pid_t pid; }`. -/
structure dill_proc where
  pid : Int
deriving DecidableEq

/-- One call across the boundary of `proc.c`, with the values it returned. -/
inductive Event where
  | malloc (p : Option Nat)
  | free (p : Nat)
  | dill_handle (data : Nat) (h : Int)
  | dill_fork (pid : Int)
  | hclose (h : Int)
  | kill (pid sig rc : Int)
  | waitpid (pid : Int) (rc : Int)
  | waitid (pid rc si_pid si_status : Int)
  | now (t : Int)
  | msleep (ddline rc errno : Int)
deriving DecidableEq

/-- Return code of a call together with the value of `errno` after it. -/
structure SysRet where
  rc : Int
  errno : Int
deriving DecidableEq

/-- What `waitid(P_PID, pid, &info, WEXITED | WNOHANG)` hands back: its return
code, the two fields of `info` the code reads, and `errno` after the call. -/
structure WaitidRet where
  rc : Int
  si_pid : Int
  si_status : Int
  errno : Int
deriving DecidableEq

/-- The collaborators of `proc.c` over a world `W`.  Every function receives the
world and the current `errno`, then its C arguments, and returns its result and
the next world.  `waitpid` is a blocking call: `none` means it never returns. -/
structure Sys (W : Type) where
  malloc : W → Option Nat × W
  dill_handle : W → Int → Nat → SysRet × W
  dill_fork : W → Int → SysRet × W
  hclose_errno : W → Int → Int × W
  kill : W → Int → Int → Int → SysRet × W
  waitpid : W → Int → Int → Option (SysRet × W)
  waitid : W → Int → Int → WaitidRet × W
  now : W → Int × W
  msleep : W → Int → Int → SysRet × W

/-- Program state: the world, `errno`, the heap of `dill_proc` records
(by address), the handle table (handle to data pointer) and the trace of calls
made so far, oldest first. -/
structure Machine (W : Type) where
  world : W
  errno : Int
  heap : Nat → Option dill_proc
  htab : Int → Option Nat
  trace : List Event

/-- How a C function ends.  `ret` is a normal return.  `abort` is a failed
`dill_assert`: the macro is defined outside `proc.c`; a failed one is fatal and
terminates the process instead of returning (the spec's
FatalInvariantViolation).  `ub` is a read through a pointer to a freed record,
`blocked` is a blocking call that never returns, and `fuel` is the loop budget
of the embedding running out. -/
inductive Outcome (α : Type) (W : Type) where
  | ret (a : α) (m : Machine W)
  | abort (m : Machine W)
  | ub (m : Machine W)
  | blocked (m : Machine W)
  | fuel (m : Machine W)

namespace Outcome

variable {α W : Type}

/-- The machine state in which the function ended. -/
def machine : Outcome α W → Machine W
  | ret _ m => m
  | abort m => m
  | ub m => m
  | blocked m => m
  | fuel m => m

/-- The returned value, when the function returned. -/
def value : Outcome α W → Option α
  | ret a _ => some a
  | _ => none

/-- The function ended in a failed assertion. -/
def aborted : Outcome α W → Bool
  | abort _ => true
  | _ => false

end Outcome

namespace Machine

variable {W : Type}

/-- Append one event to the trace. -/
def log (m : Machine W) (e : Event) : Machine W :=
  { m with trace := m.trace ++ [e] }

/-- The C library `free(p)`: the record at `p` is gone. -/
def free (m : Machine W) (p : Nat) : Machine W :=
  { m with heap := fun q => if q = p then none else m.heap q,
           trace := m.trace ++ [Event.free p] }

end Machine

variable {W : Type}

/-! ## Calls across the boundary, with logging -/

/-- Call `kill(pid, sig)`. -/
def sys_kill (S : Sys W) (pid sig : Int) (m : Machine W) : SysRet × Machine W :=
  let r := S.kill m.world m.errno pid sig
  (r.1, { m with world := r.2, errno := r.1.errno,
                 trace := m.trace ++ [Event.kill pid sig r.1.rc] })

/-- Call `waitpid(pid, NULL, 0)`; `none` when the call never returns. -/
def sys_waitpid (S : Sys W) (pid : Int) (m : Machine W) : Option (SysRet × Machine W) :=
  match S.waitpid m.world m.errno pid with
  | none => none
  | some r =>
    some (r.1, { m with world := r.2, errno := r.1.errno,
                        trace := m.trace ++ [Event.waitpid pid r.1.rc] })

/-- Call `waitid(P_PID, pid, &info, WEXITED | WNOHANG)`. -/
def sys_waitid (S : Sys W) (pid : Int) (m : Machine W) : WaitidRet × Machine W :=
  let r := S.waitid m.world m.errno pid
  (r.1, { m with world := r.2, errno := r.1.errno,
                 trace := m.trace ++ [Event.waitid pid r.1.rc r.1.si_pid r.1.si_status] })

/-- Call `now()`. -/
def sys_now (S : Sys W) (m : Machine W) : Int × Machine W :=
  let r := S.now m.world
  (r.1, { m with world := r.2, trace := m.trace ++ [Event.now r.1] })

/-- Call `msleep(ddline)`. -/
def sys_msleep (S : Sys W) (ddline : Int) (m : Machine W) : SysRet × Machine W :=
  let r := S.msleep m.world m.errno ddline
  (r.1, { m with world := r.2, errno := r.1.errno,
                 trace := m.trace ++ [Event.msleep ddline r.1.rc r.1.errno] })

/-- Call `malloc(sizeof(struct dill_proc))`; a fresh block holds no record yet,
the model stores the record when the code writes its field. -/
def sys_malloc (S : Sys W) (m : Machine W) : Option Nat × Machine W :=
  let r := S.malloc m.world
  (r.1, { m with world := r.2, trace := m.trace ++ [Event.malloc r.1] })

/-- Call `dill_fork()`. -/
def sys_fork (S : Sys W) (m : Machine W) : SysRet × Machine W :=
  let r := S.dill_fork m.world m.errno
  (r.1, { m with world := r.2, errno := r.1.errno,
                 trace := m.trace ++ [Event.dill_fork r.1.rc] })

/-- Modelled from the spec: `hdata` lives in the runtime's handle table, which is
not part of `proc.c`.  "TypedData(id, typeTag) -> data": look the handle up and
hand back its data pointer, `none` (NULL) for a handle that is not registered.
The table of this model holds process handles only, so the type tag always
matches. -/
def hdata (m : Machine W) (h : Int) : Option Nat :=
  m.htab h

/-- Modelled from the spec: `dill_handle` lives in the runtime's handle table.
"RegisterHandle(typeTag, data, opTable, label) -> id | fail": the collaborator
picks the id; a non-negative id is bound to the data pointer, a negative one is
the failure, with `errno` set by the collaborator. -/
def dill_handle (S : Sys W) (data : Nat) (m : Machine W) : Int × Machine W :=
  let r := S.dill_handle m.world m.errno data
  (r.1.rc,
   { m with world := r.2, errno := r.1.errno,
            htab := if r.1.rc < 0 then m.htab
                    else fun k => if k = r.1.rc then some data else m.htab k,
            trace := m.trace ++ [Event.dill_handle data r.1.rc] })

/-! ## `dill_proc_close` -/

/-- Model of `static void dill_proc_close(int h)`. -/
def dill_proc_close (S : Sys W) (h : Int) (m : Machine W) : Outcome Unit W :=
  match hdata m h with
  | none => Outcome.abort m                                   -- dill_assert(proc)
  | some p =>
    match m.heap p with
    | none => Outcome.ub m
    | some proc =>
      if proc.pid < 0 then Outcome.ret () (m.free p)           -- forking failed
      else
        let k := sys_kill S proc.pid SIGKILL m
        if k.1.rc ≠ 0 then Outcome.abort k.2                   -- dill_assert(rc == 0)
        else
          match sys_waitpid S proc.pid k.2 with
          | none => Outcome.blocked k.2
          | some w =>
            if w.1.rc < 0 then Outcome.abort w.2               -- dill_assert(rc >= 0)
            else Outcome.ret () (w.2.free p)

/-- Modelled from the spec: `hclose` lives in the runtime's handle table.
"GenericClose(id) — invokes the registered close operation": the operation
table registered by `dill_proc_prologue` has `dill_proc_close` in its close
slot, so closing a registered handle runs `dill_proc_close` on it and then
drops the handle from the table.  Whatever the table's own bookkeeping does to
`errno` afterwards is left to the collaborator (`hclose_errno`). -/
def hclose (S : Sys W) (h : Int) (m : Machine W) : Outcome Int W :=
  let m0 := m.log (Event.hclose h)
  match m0.htab h with
  | none => Outcome.ret (-1) { m0 with errno := EBADF }
  | some _ =>
    match dill_proc_close S h m0 with
    | Outcome.ret _ m1 =>
      let e := S.hclose_errno m1.world m1.errno
      Outcome.ret 0 { m1 with world := e.2, errno := e.1,
                              htab := fun k => if k = h then none else m1.htab k }
    | Outcome.abort m1 => Outcome.abort m1
    | Outcome.ub m1 => Outcome.ub m1
    | Outcome.blocked m1 => Outcome.blocked m1
    | Outcome.fuel m1 => Outcome.fuel m1

/-! ## `dill_proc_wait` -/

/-- What one pass through the body of the `while(1)` loop does: go round again
(`continue`, or falling off the end of the body) with the local flag `timeout`
and the machine as they are then, or leave the function. -/
inductive Pass (W : Type) where
  | again (timeout : Int) (m : Machine W)
  | leave (o : Outcome (Int × Option Int) W)

/-- The body of the `while(1)` loop of `dill_proc_wait`.  `p` is `proc`,
`result` is the cell behind the `result` pointer (`none` for a NULL pointer),
`timeout` is the local flag.  A `leave` carries the C return value and the
final content of the `result` cell. -/
def dill_proc_wait_body (S : Sys W) (p : Nat) (result : Option Int) (deadline : Int)
    (timeout : Int) (m : Machine W) : Pass W :=
  match m.heap p with
  | none => Pass.leave (Outcome.ub m)
  | some proc =>
    let q := sys_waitid S proc.pid m
    if q.1.rc ≠ 0 then Pass.leave (Outcome.abort q.2)          -- dill_assert(rc == 0)
    else if q.1.si_pid > 0 then
      Pass.leave (Outcome.ret (0, result.map (fun _ => q.1.si_status)) q.2)
    else if timeout ≠ 0 then
      -- `errno == ETIMEDOUT;` compares and discards: errno is not written
      Pass.leave (Outcome.ret (-1, result) q.2)
    else
      let t := sys_now S q.2
      let ddline := t.1 + 100
      let cut : Bool := decide (deadline ≠ -1 ∧ deadline < ddline)
      let s := sys_msleep S (if cut then deadline else ddline) t.2
      if s.1.rc = 0 then Pass.again (if cut then 1 else timeout) s.2
      else if s.1.errno ≠ ECANCELED then
        Pass.leave (Outcome.abort s.2)                         -- dill_assert(errno == ECANCELED)
      else Pass.leave (Outcome.ret (-1, result) s.2)

/-- The `while(1)` loop of `dill_proc_wait`, one pass through the body per unit
of fuel. -/
def dill_proc_wait_loop (S : Sys W) (p : Nat) (result : Option Int) (deadline : Int) :
    Nat → Int → Machine W → Outcome (Int × Option Int) W
  | 0, _, m => Outcome.fuel m
  | n + 1, timeout, m =>
    match dill_proc_wait_body S p result deadline timeout m with
    | Pass.again timeout' m' => dill_proc_wait_loop S p result deadline n timeout' m'
    | Pass.leave o => o

/-- The machine a pass through the loop body ends in. -/
def Pass.machine : Pass W → Machine W
  | Pass.again _ m => m
  | Pass.leave o => o.machine

/-- Model of `static int dill_proc_wait(int h, int *result, int64_t deadline)`. -/
def dill_proc_wait (S : Sys W) (fuel : Nat) (h : Int) (result : Option Int) (deadline : Int)
    (m : Machine W) : Outcome (Int × Option Int) W :=
  match hdata m h with
  | none => Outcome.abort m                                   -- dill_assert(proc)
  | some p => dill_proc_wait_loop S p result deadline fuel 0 m

/-! ## `dill_proc_prologue` -/

/-- Model of `int dill_proc_prologue(int *hndl, const char *created)`.  `hndl`
is the content of the cell behind the pointer before the call; the result is
the C return value and the content of that cell afterwards. -/
def dill_proc_prologue (S : Sys W) (hndl : Int) (m : Machine W) : Outcome (Int × Int) W :=
  let a := sys_malloc S m
  match a.1 with
  | none => Outcome.ret (0, -1) { a.2 with errno := ENOMEM }
  | some p =>
    let m1 : Machine W :=
      { a.2 with heap := fun q => if q = p then some ⟨-1⟩ else a.2.heap q }
    let r := dill_handle S p m1
    if r.1 < 0 then
      let err := r.2.errno
      Outcome.ret (0, -1) { r.2.free p with errno := err }
    else
      let f := sys_fork S r.2
      if f.1.rc < 0 then
        let err := f.2.errno
        match hclose S r.1 f.2 with
        | Outcome.ret _ m2 => Outcome.ret (0, -1) { m2 with errno := err }
        | Outcome.abort m2 => Outcome.abort m2
        | Outcome.ub m2 => Outcome.ub m2
        | Outcome.blocked m2 => Outcome.blocked m2
        | Outcome.fuel m2 => Outcome.fuel m2
      else if f.1.rc = 0 then Outcome.ret (1, hndl) f.2        -- child
      else
        Outcome.ret (0, r.1)                                   -- parent
          { f.2 with heap := fun q => if q = p then some ⟨f.1.rc⟩ else f.2.heap q }

/-- The machine right after the allocation at address `p` and the store
`proc->pid = -1` in `dill_proc_prologue`. -/
def allocated (S : Sys W) (p : Nat) (m : Machine W) : Machine W :=
  { (sys_malloc S m).2 with
      heap := fun q => if q = p then some ⟨-1⟩ else (sys_malloc S m).2.heap q }

/-- The handle returned by the registration in `dill_proc_prologue`, and the
machine right after it. -/
def registered (S : Sys W) (p : Nat) (m : Machine W) : Int × Machine W :=
  dill_handle S p (allocated S p m)

/-- The result of `dill_fork()` in `dill_proc_prologue`, and the machine right
after it. -/
def forked (S : Sys W) (p : Nat) (m : Machine W) : SysRet × Machine W :=
  sys_fork S (registered S p m).2

/-! ## Observations on traces -/

/-- Number of status queries (`waitid` calls) in a list of events. -/
def queries : List Event → Nat
  | [] => 0
  | Event.waitid _ _ _ _ :: es => queries es + 1
  | _ :: es => queries es

/-- Wake times of the sleeps (`msleep` calls) in a list of events, in order. -/
def sleeps : List Event → List Int
  | [] => []
  | Event.msleep d _ _ :: es => d :: sleeps es
  | _ :: es => sleeps es

/-- Signals sent (`kill` calls) in a list of events: target pid and signal. -/
def kills : List Event → List (Int × Int)
  | [] => []
  | Event.kill pid sig _ :: es => (pid, sig) :: kills es
  | _ :: es => kills es

/-- The events that follow the first `msleep` reporting cancellation (non-zero
return code with `errno` equal to `ECANCELED`); `none` when no sleep was
cancelled. -/
def afterCancel : List Event → Option (List Event)
  | [] => none
  | Event.msleep _ rc e :: es =>
    if rc ≠ 0 ∧ e = ECANCELED then some es else afterCancel es
  | _ :: es => afterCancel es

/-! ## Assumptions on the collaborators used by the timing results -/

/-- A child `pid` that never exits, a task that is never cancelled and a clock
that never runs backwards, on the worlds satisfying `I`: every status query
succeeds and reports no exit, `now()` returns a value between the clock before
and after the call, and `msleep(d)` returns 0 with the clock at `d` or later. -/
structure NeverExits (S : Sys W) (clock : W → Int) (I : W → Prop) (pid : Int) : Prop where
  waitid_rc : ∀ w e, I w → (S.waitid w e pid).1.rc = 0
  waitid_running : ∀ w e, I w → (S.waitid w e pid).1.si_pid ≤ 0
  waitid_clock : ∀ w e, I w → clock w ≤ clock (S.waitid w e pid).2
  waitid_inv : ∀ w e, I w → I (S.waitid w e pid).2
  now_lo : ∀ w, I w → clock w ≤ (S.now w).1
  now_hi : ∀ w, I w → (S.now w).1 ≤ clock (S.now w).2
  now_inv : ∀ w, I w → I (S.now w).2
  msleep_rc : ∀ w e d, I w → (S.msleep w e d).1.rc = 0
  msleep_clock : ∀ w e d, I w → clock w ≤ clock (S.msleep w e d).2
  msleep_wake : ∀ w e d, I w → d ≤ clock (S.msleep w e d).2
  msleep_inv : ∀ w e d, I w → I (S.msleep w e d).2

/-- Sleeps that wake exactly on time on a clock that only sleeping advances:
queries and `now()` leave the clock alone, `now()` returns it, and `msleep(d)`
returns with the clock at `d`, or where it was when `d` is already past. -/
structure ExactClock (S : Sys W) (clock : W → Int) (I : W → Prop) (pid : Int) : Prop where
  waitid_clock : ∀ w e, I w → clock (S.waitid w e pid).2 = clock w
  now_val : ∀ w, I w → (S.now w).1 = clock w
  now_clock : ∀ w, I w → clock (S.now w).2 = clock w
  msleep_clock : ∀ w e d, I w → clock (S.msleep w e d).2 = max (clock w) d

/-! ## A reference world

A small POSIX-like world used to run the code on concrete inputs: a clock, the
children of the calling process, and what the next allocation, registration and
fork will answer. -/

/-- A child as the kernel sees it: still running (with the time and status of
its own exit, when it has one ahead), or terminated and not yet reaped. -/
inductive PState where
  | running (exit : Option (Int × Int))
  | zombie (status : Int)
deriving DecidableEq

/-- The reference world. -/
structure Posix where
  clock : Int
  children : Int → Option PState
  cancelAt : Option Int
  mallocNext : Option Nat
  handleNext : SysRet
  forkNext : SysRet
  childFate : Option (Int × Int)
  hcloseErrno : Int

namespace Posix

/-- The state of child `pid` at the current clock: a running child whose exit
time has come is a zombie. -/
def view (w : Posix) (pid : Int) : Option PState :=
  match w.children pid with
  | some (PState.running (some ts)) =>
    if ts.1 ≤ w.clock then some (PState.zombie ts.2) else some (PState.running (some ts))
  | st => st

/-- Replace the state of child `pid`. -/
def setChild (w : Posix) (pid : Int) (st : Option PState) : Posix :=
  { w with children := fun k => if k = pid then st else w.children k }

/-- `kill(pid, sig)` with a fatal signal: no such child is `ESRCH`, a running
child is terminated by the signal, a zombie takes the signal without effect. -/
def kill (w : Posix) (e pid sig : Int) : SysRet × Posix :=
  match w.view pid with
  | none => (⟨-1, ESRCH⟩, w)
  | some (PState.running _) => (⟨0, e⟩, w.setChild pid (some (PState.zombie sig)))
  | some (PState.zombie _) => (⟨0, e⟩, w)

/-- `waitpid(pid, NULL, 0)`: no such child is `ECHILD`, a zombie is reaped, a
running child is waited for until its exit time; without one the call never
returns. -/
def waitpid (w : Posix) (e pid : Int) : Option (SysRet × Posix) :=
  match w.view pid with
  | none => some (⟨-1, ECHILD⟩, w)
  | some (PState.zombie _) => some (⟨pid, e⟩, w.setChild pid none)
  | some (PState.running (some ts)) =>
    some (⟨pid, e⟩, { w.setChild pid none with clock := ts.1 })
  | some (PState.running none) => none

/-- `waitid(P_PID, pid, &info, WEXITED | WNOHANG)`: no such child is `ECHILD`;
a running child gives return code 0 with `si_pid` 0; a zombie is reaped (there
is no `WNOWAIT`) and reported with its pid and status. -/
def waitid (w : Posix) (e pid : Int) : WaitidRet × Posix :=
  match w.view pid with
  | none => (⟨-1, 0, 0, ECHILD⟩, w)
  | some (PState.running _) => (⟨0, 0, 0, e⟩, w)
  | some (PState.zombie s) => (⟨0, pid, s, e⟩, w.setChild pid none)

/-- `msleep(d)`: sleep until `d`; when the task is cancelled at a time not
after the wake-up, return -1 with `ECANCELED` at that time. -/
def msleep (w : Posix) (e d : Int) : SysRet × Posix :=
  match w.cancelAt with
  | none => (⟨0, e⟩, { w with clock := max w.clock d })
  | some c =>
    if c ≤ max w.clock d then (⟨-1, ECANCELED⟩, { w with clock := max w.clock c })
    else (⟨0, e⟩, { w with clock := max w.clock d })

/-- `dill_fork()`: a negative answer is a failure with its error code; a
positive one is the parent's view, with the new child in the process table;
zero is the child's view, a process without children. -/
def fork (w : Posix) (e : Int) : SysRet × Posix :=
  if w.forkNext.rc < 0 then (w.forkNext, w)
  else if w.forkNext.rc = 0 then (⟨0, e⟩, { w with children := fun _ => none })
  else (⟨w.forkNext.rc, e⟩, w.setChild w.forkNext.rc (some (PState.running w.childFate)))

/-- Registration answers what the world holds ready; success leaves `errno`. -/
def handle (w : Posix) (e : Int) (_data : Nat) : SysRet × Posix :=
  if w.handleNext.rc < 0 then (w.handleNext, w) else (⟨w.handleNext.rc, e⟩, w)

/-- Worlds of the reference model in which child `pid` runs without an exit
ahead and the task is never cancelled. -/
def idle (pid : Int) (w : Posix) : Prop :=
  w.cancelAt = none ∧ w.children pid = some (PState.running none)

end Posix

/-- The collaborators over the reference world. -/
def posix : Sys Posix where
  malloc := fun w => (w.mallocNext, w)
  dill_handle := Posix.handle
  dill_fork := Posix.fork
  hclose_errno := fun w _ => (w.hcloseErrno, w)
  kill := Posix.kill
  waitpid := Posix.waitpid
  waitid := Posix.waitid
  now := fun w => (w.clock, w)
  msleep := Posix.msleep

/-- A world at clock `t0` without children, where allocation gives address 1,
registration gives handle 0 and fork gives child 4242 with fate `fate`. -/
def world0 (t0 : Int) (fate : Option (Int × Int)) : Posix where
  clock := t0
  children := fun _ => none
  cancelAt := none
  mallocNext := some 1
  handleNext := ⟨0, 0⟩
  forkNext := ⟨4242, 0⟩
  childFate := fate
  hcloseErrno := 0

/-- A machine before any handle exists, with `errno` 0. -/
def boot (w : Posix) : Machine Posix where
  world := w
  errno := 0
  heap := fun _ => none
  htab := fun _ => none
  trace := []

/-- The machine of a process that holds handle 0 for the record at address 1
with pid 4242, where `st` is what the process table has for 4242 (`none` when
4242 is no child of the process), with nothing logged yet. -/
def owner (w : Posix) (st : Option PState) (e : Int) : Machine Posix where
  world := w.setChild 4242 st
  errno := e
  heap := fun q => if q = 1 then some ⟨4242⟩ else none
  htab := fun k => if k = 0 then some 1 else none
  trace := []

/-- The machine of a process that holds handle 0 for a record at address 1
whose pid is still the sentinel -1. -/
def unforked (w : Posix) : Machine Posix where
  world := w
  errno := 0
  heap := fun q => if q = 1 then some ⟨-1⟩ else none
  htab := fun k => if k = 0 then some 1 else none
  trace := []

/-- The machine of the parent after `dill_proc_prologue` in a world at clock 0
whose forked child 4242 exits at time 50 with status 42. -/
def spawned : Machine Posix :=
  (dill_proc_prologue posix (-1) (boot (world0 0 (some (50, 42))))).machine

/-- The machine after a wait with deadline 5000 on the handle of `spawned`. -/
def waited : Machine Posix :=
  (dill_proc_wait posix 10 0 (some 0) 5000 spawned).machine

/-! ## Results -/

/-! ### `dill_proc_wait`: a child that has already exited -/

/-- C1: for every deadline, when the first non-blocking status query succeeds
and reports an exited child (`si_pid > 0`), `dill_proc_wait` returns 0 having
made that one call only (so no `msleep`), and a non-null `result` cell holds
the `si_status` of that query (a NULL `result` stays NULL). -/
theorem dill_proc_wait_exited_first_query (S : Sys W) (fuel : Nat) (h : Int) (p : Nat)
    (proc : dill_proc) (result : Option Int) (deadline : Int) (m : Machine W)
    (hh : hdata m h = some p) (hp : m.heap p = some proc)
    (hrc : (S.waitid m.world m.errno proc.pid).1.rc = 0)
    (hexit : 0 < (S.waitid m.world m.errno proc.pid).1.si_pid) :
    ∃ m' cell evs,
      dill_proc_wait S (fuel + 1) h result deadline m = Outcome.ret (0, cell) m' ∧
      m'.trace = m.trace ++ evs ∧
      evs = [Event.waitid proc.pid 0
        (S.waitid m.world m.errno proc.pid).1.si_pid
        (S.waitid m.world m.errno proc.pid).1.si_status] ∧
      sleeps evs = [] ∧
      (result ≠ none → cell = some (S.waitid m.world m.errno proc.pid).1.si_status) ∧
      (result = none → cell = none) := by
  refine ⟨(sys_waitid S proc.pid m).2,
    result.map (fun _ => (S.waitid m.world m.errno proc.pid).1.si_status), _, ?_, ?_, rfl,
    rfl, ?_, ?_⟩
  · simp [dill_proc_wait, hh, dill_proc_wait_loop, dill_proc_wait_body, hp, sys_waitid, hrc,
      hexit]
  · simp [sys_waitid, hrc]
  · cases result <;> simp
  · intro hr; simp [hr]

/-- Witness for C1: handle 0 owns child 4242, already exited with status 42; the
deadline 3 is before the clock 7. -/
theorem dill_proc_wait_exited_first_query_witness :
    ∃ m' cell,
      dill_proc_wait posix 1 0 (some 0) 3 (owner (world0 7 none) (some (PState.zombie 42)) 0)
        = Outcome.ret (0, cell) m' ∧
      m'.trace = [Event.waitid 4242 0 4242 42] ∧ cell = some 42 := by
  obtain ⟨m', cell, evs, h1, h2, h3, _, h5, _⟩ :=
    dill_proc_wait_exited_first_query posix 0 0 1 ⟨4242⟩ (some 0) 3
      (owner (world0 7 none) (some (PState.zombie 42)) 0) rfl rfl (by decide) (by decide)
  exact ⟨m', cell, h1, h2.trans (by rw [h3]; rfl), h5 (by simp)⟩

/-! ### `dill_proc_close` -/

/-- C5: `dill_proc_close` on a record with a negative pid (the sentinel -1)
makes one call, `free`, and leaves the world alone: no `kill`, no `waitpid`.
On a record with any other pid it calls `kill(pid, SIGKILL)` first; when that
fails it aborts with nothing else done and the record still allocated; when it
succeeds it calls the blocking `waitpid` on the same pid next, and `free` comes
third, only once `waitpid` has returned a non-negative code (a `waitpid` that
fails aborts, one that never returns blocks, both with the record still
allocated). -/
theorem dill_proc_close_steps (S : Sys W) (h : Int) (p : Nat) (proc : dill_proc)
    (m : Machine W) (hh : hdata m h = some p) (hp : m.heap p = some proc) :
    (proc.pid < 0 →
      ∃ m', dill_proc_close S h m = Outcome.ret () m' ∧
        m'.trace = m.trace ++ [Event.free p] ∧ m'.world = m.world ∧ m'.heap p = none) ∧
    (0 ≤ proc.pid → (S.kill m.world m.errno proc.pid SIGKILL).1.rc ≠ 0 →
      ∃ m', dill_proc_close S h m = Outcome.abort m' ∧
        m'.trace = m.trace ++
          [Event.kill proc.pid SIGKILL (S.kill m.world m.errno proc.pid SIGKILL).1.rc] ∧
        m'.heap = m.heap) ∧
    (0 ≤ proc.pid → (S.kill m.world m.errno proc.pid SIGKILL).1.rc = 0 →
      (∀ r, S.waitpid (S.kill m.world m.errno proc.pid SIGKILL).2
              (S.kill m.world m.errno proc.pid SIGKILL).1.errno proc.pid = some r →
          0 ≤ r.1.rc →
          ∃ m', dill_proc_close S h m = Outcome.ret () m' ∧
            m'.trace = m.trace ++
              [Event.kill proc.pid SIGKILL 0, Event.waitpid proc.pid r.1.rc, Event.free p] ∧
            m'.world = r.2 ∧ m'.heap p = none) ∧
      (∀ r, S.waitpid (S.kill m.world m.errno proc.pid SIGKILL).2
              (S.kill m.world m.errno proc.pid SIGKILL).1.errno proc.pid = some r →
          r.1.rc < 0 →
          ∃ m', dill_proc_close S h m = Outcome.abort m' ∧
            m'.trace = m.trace ++
              [Event.kill proc.pid SIGKILL 0, Event.waitpid proc.pid r.1.rc] ∧
            m'.heap = m.heap) ∧
      (S.waitpid (S.kill m.world m.errno proc.pid SIGKILL).2
              (S.kill m.world m.errno proc.pid SIGKILL).1.errno proc.pid = none →
          ∃ m', dill_proc_close S h m = Outcome.blocked m' ∧
            m'.trace = m.trace ++ [Event.kill proc.pid SIGKILL 0] ∧
            m'.heap = m.heap)) := by
  refine ⟨?_, ?_, ?_⟩
  · intro hneg
    simp [dill_proc_close, hh, hp, hneg, Machine.free]
  · intro hpos hk
    have hn : ¬ proc.pid < 0 := not_lt.mpr hpos
    simp [dill_proc_close, hh, hp, hn, sys_kill, hk]
  · intro hpos hk
    have hn : ¬ proc.pid < 0 := not_lt.mpr hpos
    refine ⟨?_, ?_, ?_⟩
    · intro r hr hrc
      have hrc' : ¬ r.1.rc < 0 := not_lt.mpr hrc
      simp [dill_proc_close, hh, hp, hn, sys_kill, hk, sys_waitpid, hr, hrc', Machine.free]
    · intro r hr hrc
      simp [dill_proc_close, hh, hp, hn, sys_kill, hk, sys_waitpid, hr, hrc]
    · intro hr
      simp [dill_proc_close, hh, hp, hn, sys_kill, hk, sys_waitpid, hr]

/-- Witness for C5, on three records behind handle 0: one with the sentinel pid
(only `free`), one that owns the running child 4242 (`kill`, `waitpid`, `free`
in this order), and one whose pid 4242 is no child of the process (`kill` fails
and the call aborts). -/
theorem dill_proc_close_steps_witness :
    (∃ m', dill_proc_close posix 0 (unforked (world0 0 none)) = Outcome.ret () m' ∧
        m'.trace = [Event.free 1]) ∧
    (∃ m', dill_proc_close posix 0 (owner (world0 0 none) (some (PState.running none)) 0)
          = Outcome.ret () m' ∧
        m'.trace = [Event.kill 4242 9 0, Event.waitpid 4242 4242, Event.free 1]) ∧
    (∃ m', dill_proc_close posix 0 (owner (world0 0 none) none 0) = Outcome.abort m' ∧
        m'.trace = [Event.kill 4242 9 (-1)]) := by
  refine ⟨?_, ?_, ?_⟩
  · obtain ⟨m', h1, h2, _⟩ :=
      (dill_proc_close_steps posix 0 1 ⟨-1⟩ (unforked (world0 0 none)) rfl rfl).1 (by decide)
    exact ⟨m', h1, h2⟩
  · obtain ⟨m', h1, h2, _⟩ :=
      ((dill_proc_close_steps posix 0 1 ⟨4242⟩
        (owner (world0 0 none) (some (PState.running none)) 0)
        rfl rfl).2.2 (by decide) (by decide)).1 _ rfl (by decide)
    exact ⟨m', h1, h2⟩
  · obtain ⟨m', h1, h2, _⟩ :=
      (dill_proc_close_steps posix 0 1 ⟨4242⟩ (owner (world0 0 none) none 0)
        rfl rfl).2.1 (by decide) (by decide)
    exact ⟨m', h1, h2⟩

/-! ### `dill_proc_prologue` -/

/-- C6: when the allocation gives a block `p`, the registration gives a handle
(not negative) and `dill_fork` succeeds (not negative), `dill_proc_prologue`
returns 1 when the fork result is 0 (child) and 0 when it is positive (parent).
In the child the record's pid is still the sentinel -1 and the output cell is
not written; in the parent the record's pid is the fork result and the output
cell holds the handle given by the registration, which is bound to the
record. -/
theorem dill_proc_prologue_fork_ok (S : Sys W) (hndl : Int) (p : Nat) (m : Machine W)
    (ha : (S.malloc m.world).1 = some p)
    (hr : 0 ≤ (registered S p m).1)
    (hf : 0 ≤ (forked S p m).1.rc) :
    ((forked S p m).1.rc = 0 →
      ∃ m', dill_proc_prologue S hndl m = Outcome.ret (1, hndl) m' ∧
        m'.heap p = some ⟨-1⟩) ∧
    (0 < (forked S p m).1.rc →
      ∃ m', dill_proc_prologue S hndl m = Outcome.ret (0, (registered S p m).1) m' ∧
        m'.heap p = some ⟨(forked S p m).1.rc⟩ ∧
        hdata m' (registered S p m).1 = some p) ∧
    ((dill_proc_prologue S hndl m).value.map Prod.fst
      = some (if (forked S p m).1.rc = 0 then 1 else 0)) := by
  have ha' : (sys_malloc S m).1 = some p := ha
  have hr' : ¬ (registered S p m).1 < 0 := not_lt.mpr hr
  have hf' : ¬ (forked S p m).1.rc < 0 := not_lt.mpr hf
  have hr2 : ¬ (S.dill_handle (S.malloc m.world).2 m.errno p).1.rc < 0 := hr'
  have key : dill_proc_prologue S hndl m =
      if (forked S p m).1.rc = 0 then Outcome.ret (1, hndl) (forked S p m).2
      else Outcome.ret (0, (registered S p m).1)
        { (forked S p m).2 with
            heap := fun q => if q = p then some ⟨(forked S p m).1.rc⟩
                             else (forked S p m).2.heap q } := by
    unfold dill_proc_prologue
    simp only [ha']
    simp only [forked, registered, allocated] at hr' hf' ⊢
    simp only [hr', hf', if_false]
  refine ⟨?_, ?_, ?_⟩
  · intro h0
    refine ⟨(forked S p m).2, ?_, ?_⟩
    · rw [key, if_pos h0]
    · simp [forked, sys_fork, registered, dill_handle, allocated]
  · intro hpos
    have h0 : ¬ (forked S p m).1.rc = 0 := ne_of_gt hpos
    rw [key, if_neg h0]
    refine ⟨_, rfl, ?_, ?_⟩
    · simp
    · simp [hdata, forked, sys_fork, registered, dill_handle, allocated, sys_malloc, hr2]
  · rw [key]
    split <;> simp [Outcome.value]

/-- Witness for C6: in the reference world the fork gives 4242 in the parent,
which returns 0 with handle 0 and pid 4242 in the record at address 1; with a
fork result of 0 (the child) the call returns 1 and the record keeps -1. -/
theorem dill_proc_prologue_fork_ok_witness :
    (∃ m', dill_proc_prologue posix (-7) (boot (world0 0 none)) = Outcome.ret (0, 0) m' ∧
        m'.heap 1 = some ⟨4242⟩ ∧ hdata m' 0 = some 1) ∧
    (∃ m', dill_proc_prologue posix (-7) (boot { world0 0 none with forkNext := ⟨0, 0⟩ })
          = Outcome.ret (1, -7) m' ∧ m'.heap 1 = some ⟨-1⟩) :=
  ⟨(dill_proc_prologue_fork_ok posix (-7) 1 (boot (world0 0 none)) rfl
      (by decide) (by decide)).2.1 (by decide),
   (dill_proc_prologue_fork_ok posix (-7) 1 (boot { world0 0 none with forkNext := ⟨0, 0⟩ }) rfl
      (by decide) (by decide)).1 (by decide)⟩

/-- C7: when the allocation gives a block `p`, the registration gives a handle
`h` and `dill_fork` fails, `dill_proc_prologue` calls `hclose(h)` once; that
close runs `dill_proc_close` on a record whose pid is still -1, so it only
frees the record (no `kill`, no `waitpid`); the call then returns 0 with -1 in
the output cell, the handle gone from the table, and `errno` equal to the error
code `dill_fork` left, whatever `hclose` did to `errno` (`hclose_errno` is
arbitrary). -/
theorem dill_proc_prologue_fork_fails (S : Sys W) (hndl : Int) (p : Nat) (m : Machine W)
    (ha : (S.malloc m.world).1 = some p)
    (hr : 0 ≤ (registered S p m).1)
    (hf : (forked S p m).1.rc < 0) :
    ∃ m', dill_proc_prologue S hndl m = Outcome.ret (0, -1) m' ∧
      m'.errno = (forked S p m).1.errno ∧
      m'.trace = m.trace ++
        [Event.malloc (some p), Event.dill_handle p (registered S p m).1,
         Event.dill_fork (forked S p m).1.rc, Event.hclose (registered S p m).1,
         Event.free p] ∧
      m'.heap p = none ∧
      hdata m' (registered S p m).1 = none := by
  have ha' : (sys_malloc S m).1 = some p := ha
  have hr' : ¬ (registered S p m).1 < 0 := not_lt.mpr hr
  have hr2 : ¬ (S.dill_handle (S.malloc m.world).2 m.errno p).1.rc < 0 := hr'
  have hf2 : (S.dill_fork (S.dill_handle (S.malloc m.world).2 m.errno p).2
      (S.dill_handle (S.malloc m.world).2 m.errno p).1.errno).1.rc < 0 := hf
  simp [dill_proc_prologue, ha', sys_malloc, dill_handle, sys_fork, hr2, hf2, hclose,
    Machine.log, dill_proc_close, hdata, Machine.free, forked, registered, allocated, ha]

/-- Witness for C7: the fork fails with error 11 and `hclose` leaves 77 in
`errno`; the call returns 0 with -1 in the output cell and `errno` 11. -/
theorem dill_proc_prologue_fork_fails_witness :
    ∃ m', dill_proc_prologue posix 5
        (boot { world0 0 none with forkNext := ⟨-1, 11⟩, hcloseErrno := 77 })
        = Outcome.ret (0, -1) m' ∧
      m'.errno = 11 ∧
      m'.trace = [Event.malloc (some 1), Event.dill_handle 1 0, Event.dill_fork (-1),
                  Event.hclose 0, Event.free 1] := by
  obtain ⟨m', h1, h2, h3, _⟩ :=
    dill_proc_prologue_fork_fails posix 5 1
      (boot { world0 0 none with forkNext := ⟨-1, 11⟩, hcloseErrno := 77 })
      rfl (by decide) (by decide)
  exact ⟨m', h1, h2, h3⟩

/-- C8: when the allocation fails, `dill_proc_prologue` makes no other call (so
no `dill_fork`), and returns 0 with -1 in the output cell and `errno` equal to
`ENOMEM`.  When the allocation gives a block `p` and the registration fails, the
calls are the allocation, the registration and `free(p)` (so no `dill_fork`),
the record is freed, and the call returns 0 with -1 in the output cell and
`errno` equal to the error code the registration left. -/
theorem dill_proc_prologue_no_handle (S : Sys W) (hndl : Int) (m : Machine W) :
    ((S.malloc m.world).1 = none →
      ∃ m', dill_proc_prologue S hndl m = Outcome.ret (0, -1) m' ∧
        m'.errno = ENOMEM ∧
        m'.trace = m.trace ++ [Event.malloc none]) ∧
    (∀ p, (S.malloc m.world).1 = some p → (registered S p m).1 < 0 →
      ∃ m', dill_proc_prologue S hndl m = Outcome.ret (0, -1) m' ∧
        m'.errno = (S.dill_handle (S.malloc m.world).2 m.errno p).1.errno ∧
        m'.trace = m.trace ++
          [Event.malloc (some p), Event.dill_handle p (registered S p m).1, Event.free p] ∧
        m'.heap p = none) := by
  refine ⟨?_, ?_⟩
  · intro ha
    have ha' : (sys_malloc S m).1 = none := ha
    simp [dill_proc_prologue, ha', sys_malloc, ha]
  · intro p ha hr
    have ha' : (sys_malloc S m).1 = some p := ha
    have hr2 : (S.dill_handle (S.malloc m.world).2 m.errno p).1.rc < 0 := hr
    simp [dill_proc_prologue, ha', sys_malloc, dill_handle, hr2, Machine.free, registered,
      allocated, ha]

/-- Witness for C8: an allocation failure, and a registration failure with
error 24, in the reference world. -/
theorem dill_proc_prologue_no_handle_witness :
    (∃ m', dill_proc_prologue posix 5 (boot { world0 0 none with mallocNext := none })
          = Outcome.ret (0, -1) m' ∧
        m'.errno = 12 ∧ m'.trace = [Event.malloc none]) ∧
    (∃ m', dill_proc_prologue posix 5 (boot { world0 0 none with handleNext := ⟨-1, 24⟩ })
          = Outcome.ret (0, -1) m' ∧
        m'.errno = 24 ∧
        m'.trace = [Event.malloc (some 1), Event.dill_handle 1 (-1), Event.free 1]) := by
  refine ⟨?_, ?_⟩
  · obtain ⟨m', h1, h2, h3⟩ :=
      (dill_proc_prologue_no_handle posix 5
        (boot { world0 0 none with mallocNext := none })).1 rfl
    exact ⟨m', h1, h2, h3⟩
  · obtain ⟨m', h1, h2, h3, _⟩ :=
      (dill_proc_prologue_no_handle posix 5
        (boot { world0 0 none with handleNext := ⟨-1, 24⟩ })).2 1 rfl (by decide)
    exact ⟨m', h1, h2, h3⟩

/-! ### Traces -/

theorem kills_append (xs ys : List Event) : kills (xs ++ ys) = kills xs ++ kills ys := by
  induction xs with
  | nil => rfl
  | cons x xs ih => cases x <;> simp [kills, ih]

theorem sleeps_append (xs ys : List Event) : sleeps (xs ++ ys) = sleeps xs ++ sleeps ys := by
  induction xs with
  | nil => rfl
  | cons x xs ih => cases x <;> simp [sleeps, ih]

theorem queries_append (xs ys : List Event) : queries (xs ++ ys) = queries xs + queries ys := by
  induction xs with
  | nil => simp [queries]
  | cons x xs ih => cases x <;> simp [queries, ih]; omega

theorem afterCancel_append (xs ys : List Event) (h : afterCancel xs = none) :
    afterCancel (xs ++ ys) = afterCancel ys := by
  induction xs with
  | nil => rfl
  | cons x xs ih =>
    cases x <;> simp [afterCancel] at h ⊢ <;> try exact ih h
    rename_i d rc e
    by_cases hc : rc ≠ 0 ∧ e = ECANCELED
    · simp [hc] at h
    · have hc' : ¬ (¬ rc = 0 ∧ e = ECANCELED) := hc
      simp only [hc', if_false] at h ⊢
      exact ih h

/-! ### `dill_proc_wait`: cancellation -/

/-- One pass through the loop body appends its calls to the trace, sends no
signal and leaves the heap alone.  A pass that goes round again had no
cancelled sleep; in a pass that leaves the function after a sleep reported
cancellation, that sleep is the last call, the return value is -1 with the
`result` cell untouched, and `errno` is `ECANCELED`. -/
theorem wait_body_cancel (S : Sys W) (p : Nat) (result : Option Int) (deadline timeout : Int)
    (m : Machine W) :
    ∃ evs,
      (dill_proc_wait_body S p result deadline timeout m).machine.trace = m.trace ++ evs ∧
      kills evs = [] ∧
      (dill_proc_wait_body S p result deadline timeout m).machine.heap = m.heap ∧
      match dill_proc_wait_body S p result deadline timeout m with
      | Pass.again _ _ => afterCancel evs = none
      | Pass.leave o => ∀ post, afterCancel evs = some post →
          post = [] ∧ o.value = some (-1, result) ∧ o.machine.errno = ECANCELED := by
  unfold dill_proc_wait_body
  cases hp : m.heap p with
  | none => exact ⟨[], by simp [Pass.machine, Outcome.machine], rfl, rfl, by simp [afterCancel]⟩
  | some proc =>
    dsimp only
    have hq1 : (sys_waitid S proc.pid m).2.trace = m.trace ++
        [Event.waitid proc.pid (sys_waitid S proc.pid m).1.rc (sys_waitid S proc.pid m).1.si_pid
          (sys_waitid S proc.pid m).1.si_status] := rfl
    have hq2 : (sys_waitid S proc.pid m).2.heap = m.heap := rfl
    generalize sys_waitid S proc.pid m = q at *
    by_cases h1 : q.1.rc ≠ 0
    · rw [if_pos h1]
      exact ⟨_, hq1, rfl, hq2, by simp [afterCancel]⟩
    rw [if_neg h1]
    by_cases h2 : q.1.si_pid > 0
    · rw [if_pos h2]
      exact ⟨_, hq1, rfl, hq2, by simp [afterCancel]⟩
    rw [if_neg h2]
    by_cases h3 : timeout ≠ 0
    · rw [if_pos h3]
      exact ⟨_, hq1, rfl, hq2, by simp [afterCancel]⟩
    rw [if_neg h3]
    have ht1 : (sys_now S q.2).2.trace = q.2.trace ++ [Event.now (sys_now S q.2).1] := rfl
    have ht2 : (sys_now S q.2).2.heap = q.2.heap := rfl
    generalize sys_now S q.2 = t at *
    generalize (if decide (deadline ≠ -1 ∧ deadline < t.1 + 100) = true then deadline
      else t.1 + 100) = d
    generalize (if decide (deadline ≠ -1 ∧ deadline < t.1 + 100) = true then (1 : Int)
      else timeout) = timeout'
    have hs1 : (sys_msleep S d t.2).2.trace = t.2.trace ++
        [Event.msleep d (sys_msleep S d t.2).1.rc (sys_msleep S d t.2).1.errno] := rfl
    have hs2 : (sys_msleep S d t.2).2.heap = t.2.heap := rfl
    have hs3 : (sys_msleep S d t.2).2.errno = (sys_msleep S d t.2).1.errno := rfl
    generalize sys_msleep S d t.2 = s at *
    have htr : s.2.trace = m.trace ++ [Event.waitid proc.pid q.1.rc q.1.si_pid q.1.si_status,
        Event.now t.1, Event.msleep d s.1.rc s.1.errno] := by
      rw [hs1, ht1, hq1]; simp
    have hhp : s.2.heap = m.heap := by rw [hs2, ht2, hq2]
    by_cases h4 : s.1.rc = 0
    · rw [if_pos h4]
      exact ⟨_, htr, rfl, hhp, by simp [afterCancel, h4]⟩
    rw [if_neg h4]
    by_cases h5 : s.1.errno ≠ ECANCELED
    · rw [if_pos h5]
      exact ⟨_, htr, rfl, hhp, by simp [afterCancel, h5]⟩
    rw [if_neg h5]
    have h5' : s.1.errno = ECANCELED := not_not.mp h5
    refine ⟨_, htr, rfl, hhp, ?_⟩
    intro post hpost
    simp [afterCancel, h4, h5'] at hpost
    exact ⟨hpost, rfl, hs3.trans h5'⟩

/-- Over the whole loop: the calls are appended to the trace, no signal is sent,
the heap is left alone, and when a sleep reported cancellation that sleep is
the last call, the loop returns -1 with the `result` cell untouched and `errno`
is `ECANCELED`. -/
theorem wait_loop_cancel (S : Sys W) (p : Nat) (result : Option Int) (deadline : Int) :
    ∀ (n : Nat) (timeout : Int) (m : Machine W),
      ∃ evs,
        (dill_proc_wait_loop S p result deadline n timeout m).machine.trace = m.trace ++ evs ∧
        kills evs = [] ∧
        (dill_proc_wait_loop S p result deadline n timeout m).machine.heap = m.heap ∧
        ∀ post, afterCancel evs = some post →
          post = [] ∧
          (dill_proc_wait_loop S p result deadline n timeout m).value = some (-1, result) ∧
          (dill_proc_wait_loop S p result deadline n timeout m).machine.errno = ECANCELED := by
  intro n
  induction n with
  | zero =>
    intro timeout m
    exact ⟨[], by simp [dill_proc_wait_loop, Outcome.machine], rfl, rfl, by simp [afterCancel]⟩
  | succ n ih =>
    intro timeout m
    obtain ⟨evs, b1, b2, b3, b4⟩ := wait_body_cancel S p result deadline timeout m
    rw [dill_proc_wait_loop]
    cases hb : dill_proc_wait_body S p result deadline timeout m with
    | leave o =>
      rw [hb] at b1 b3 b4
      exact ⟨evs, b1, b2, b3, b4⟩
    | again timeout' m' =>
      rw [hb] at b1 b3 b4
      obtain ⟨evs', c1, c2, c3, c4⟩ := ih timeout' m'
      have b1' : m'.trace = m.trace ++ evs := b1
      have b3' : m'.heap = m.heap := b3
      refine ⟨evs ++ evs', ?_, ?_, ?_, ?_⟩
      · dsimp only; rw [c1, b1', List.append_assoc]
      · rw [kills_append, b2, c2]; rfl
      · dsimp only; rw [c3, b3']
      · intro post hpost
        rw [afterCancel_append evs evs' b4] at hpost
        exact c4 post hpost

/-- C4: in any run of `dill_proc_wait`, with `evs` the calls it made: when some
`msleep` reported cancellation (a non-zero return code with `errno` equal to
`ECANCELED`), nothing follows that call in `evs` (no further status query, no
further sleep), the function returned -1 with the `result` cell untouched and
`errno` is `ECANCELED` on return; moreover no `kill` is among the calls and the
heap, so the record's pid, is as it was.  The deadline and the value of the
`timeout` flag play no part: a cancelled final, deadline-truncated sleep gives
the same outcome. -/
theorem dill_proc_wait_cancelled (S : Sys W) (fuel : Nat) (h : Int) (result : Option Int)
    (deadline : Int) (m : Machine W) (evs post : List Event)
    (htrace : (dill_proc_wait S fuel h result deadline m).machine.trace = m.trace ++ evs)
    (hcancel : afterCancel evs = some post) :
    post = [] ∧
    (dill_proc_wait S fuel h result deadline m).value = some (-1, result) ∧
    (dill_proc_wait S fuel h result deadline m).machine.errno = ECANCELED ∧
    kills evs = [] ∧
    (dill_proc_wait S fuel h result deadline m).machine.heap = m.heap := by
  unfold dill_proc_wait at htrace ⊢
  cases hh : hdata m h with
  | none =>
    rw [hh] at htrace
    have : evs = [] := by
      have h0 : m.trace = m.trace ++ evs := htrace
      exact (List.self_eq_append_right.mp h0)
    subst this
    simp [afterCancel] at hcancel
  | some p =>
    rw [hh] at htrace
    dsimp only at htrace ⊢
    obtain ⟨evs', c1, c2, c3, c4⟩ := wait_loop_cancel S p result deadline fuel 0 m
    have : evs = evs' := List.append_cancel_left (htrace.symm.trans c1)
    subst this
    obtain ⟨d1, d2, d3⟩ := c4 post hcancel
    exact ⟨d1, d2, d3, c2, c3⟩

/-- Witness for C4, with child 4242 running for ever.  First the task is
cancelled at time 250 and the wait has no deadline: the third sleep is
cancelled, it is the last call, and the wait returns -1 with `errno` 125.  Then
the task is cancelled at time 20 and the deadline is 50, so the first sleep is
the final, deadline-truncated one: it is cancelled, it is the last call, and
the wait returns -1 with `errno` 125. -/
theorem dill_proc_wait_cancelled_witness :
    ((dill_proc_wait posix 10 0 (some 0) (-1)
        (owner { world0 7 none with cancelAt := some 250 } (some (PState.running none)) 0)
      ).machine.trace
      = [Event.waitid 4242 0 0 0, Event.now 7, Event.msleep 107 0 0,
         Event.waitid 4242 0 0 0, Event.now 107, Event.msleep 207 0 0,
         Event.waitid 4242 0 0 0, Event.now 207, Event.msleep 307 (-1) 125] ∧
     (dill_proc_wait posix 10 0 (some 0) (-1)
        (owner { world0 7 none with cancelAt := some 250 } (some (PState.running none)) 0)
      ).value = some (-1, some 0) ∧
     (dill_proc_wait posix 10 0 (some 0) (-1)
        (owner { world0 7 none with cancelAt := some 250 } (some (PState.running none)) 0)
      ).machine.errno = 125) ∧
    ((dill_proc_wait posix 10 0 (some 0) 50
        (owner { world0 7 none with cancelAt := some 20 } (some (PState.running none)) 0)
      ).machine.trace
      = [Event.waitid 4242 0 0 0, Event.now 7, Event.msleep 50 (-1) 125] ∧
     (dill_proc_wait posix 10 0 (some 0) 50
        (owner { world0 7 none with cancelAt := some 20 } (some (PState.running none)) 0)
      ).value = some (-1, some 0) ∧
     (dill_proc_wait posix 10 0 (some 0) 50
        (owner { world0 7 none with cancelAt := some 20 } (some (PState.running none)) 0)
      ).machine.errno = 125) :=
  have hrun : (dill_proc_wait posix 10 0 (some 0) (-1)
        (owner { world0 7 none with cancelAt := some 250 } (some (PState.running none)) 0)
      ).machine.trace
      = [] ++ [Event.waitid 4242 0 0 0, Event.now 7, Event.msleep 107 0 0,
         Event.waitid 4242 0 0 0, Event.now 107, Event.msleep 207 0 0,
         Event.waitid 4242 0 0 0, Event.now 207, Event.msleep 307 (-1) 125] := by decide
  have hw := dill_proc_wait_cancelled posix 10 0 (some 0) (-1)
    (owner { world0 7 none with cancelAt := some 250 } (some (PState.running none)) 0)
    _ [] hrun (by decide)
  have hrun2 : (dill_proc_wait posix 10 0 (some 0) 50
        (owner { world0 7 none with cancelAt := some 20 } (some (PState.running none)) 0)
      ).machine.trace
      = [] ++ [Event.waitid 4242 0 0 0, Event.now 7, Event.msleep 50 (-1) 125] := by decide
  have hw2 := dill_proc_wait_cancelled posix 10 0 (some 0) 50
    (owner { world0 7 none with cancelAt := some 20 } (some (PState.running none)) 0)
    _ [] hrun2 (by decide)
  ⟨⟨hrun, hw.2.1, hw.2.2.1⟩, ⟨hrun2, hw2.2.1, hw2.2.2.1⟩⟩

/-! ### `dill_proc_wait`: a child that never exits -/

/-- A pass through the loop body with the `timeout` flag clear, for a child that
never exits and a task that is never cancelled: one query, one `now()`, one
`msleep`, and round again; the wake time and the new flag are as the code
computes them from the value `t` of `now()`. -/
theorem wait_body_running (S : Sys W) (clock : W → Int) (I : W → Prop) (pid : Int)
    (H : NeverExits S clock I pid) (p : Nat) (result : Option Int) (D : Int) (m : Machine W)
    (hp : m.heap p = some ⟨pid⟩) (hI : I m.world) :
    ∃ sp ss t e m',
      dill_proc_wait_body S p result D 0 m
        = Pass.again (if D ≠ -1 ∧ D < t + 100 then 1 else 0) m' ∧
      m'.trace = m.trace ++ [Event.waitid pid 0 sp ss, Event.now t,
        Event.msleep (if D ≠ -1 ∧ D < t + 100 then D else t + 100) 0 e] ∧
      m'.heap = m.heap ∧ I m'.world ∧ clock m.world ≤ t ∧ t ≤ clock m'.world ∧
      (if D ≠ -1 ∧ D < t + 100 then D else t + 100) ≤ clock m'.world ∧
      (ExactClock S clock I pid →
        t = clock m.world ∧
        clock m'.world = max (clock m.world) (if D ≠ -1 ∧ D < t + 100 then D else t + 100)) := by
  have q1 := H.waitid_rc m.world m.errno hI
  have q2 := H.waitid_running m.world m.errno hI
  have q3 := H.waitid_clock m.world m.errno hI
  have q4 := H.waitid_inv m.world m.errno hI
  have n1 := H.now_lo _ q4
  have n2 := H.now_hi _ q4
  have n3 := H.now_inv _ q4
  have s1 := fun e d => H.msleep_rc _ e d n3
  have s2 := fun e d => H.msleep_clock _ e d n3
  have s3 := fun e d => H.msleep_wake _ e d n3
  have s4 := fun e d => H.msleep_inv _ e d n3
  have q2' : ¬ (S.waitid m.world m.errno pid).1.si_pid > 0 := not_lt.mpr q2
  have hq : (sys_waitid S pid m).2.world = (S.waitid m.world m.errno pid).2 := rfl
  have ht : (sys_now S (sys_waitid S pid m).2).1 = (S.now (S.waitid m.world m.errno pid).2).1 :=
    rfl
  have ht' : (sys_now S (sys_waitid S pid m).2).2.world
      = (S.now (S.waitid m.world m.errno pid).2).2 := rfl
  refine ⟨(sys_waitid S pid m).1.si_pid, (sys_waitid S pid m).1.si_status,
    (sys_now S (sys_waitid S pid m).2).1,
    (sys_msleep S
      (if D ≠ -1 ∧ D < (sys_now S (sys_waitid S pid m).2).1 + 100 then D
        else (sys_now S (sys_waitid S pid m).2).1 + 100)
      (sys_now S (sys_waitid S pid m).2).2).1.errno,
    (sys_msleep S
      (if D ≠ -1 ∧ D < (sys_now S (sys_waitid S pid m).2).1 + 100 then D
        else (sys_now S (sys_waitid S pid m).2).1 + 100)
      (sys_now S (sys_waitid S pid m).2).2).2, ?_, ?_, rfl, ?_, ?_, ?_, ?_, ?_⟩
  · simp only [dill_proc_wait_body, hp]
    have e1 : (sys_waitid S pid m).1.rc = 0 := q1
    have e2 : ¬ (sys_waitid S pid m).1.si_pid > 0 := q2'
    have e3 : ∀ d, (sys_msleep S d (sys_now S (sys_waitid S pid m).2).2).1.rc = 0 :=
      fun d => s1 _ d
    simp [e1, e2, e3]
  · have e1 : (sys_waitid S pid m).1.rc = 0 := q1
    have e3 : ∀ d, (sys_msleep S d (sys_now S (sys_waitid S pid m).2).2).1.rc = 0 :=
      fun d => s1 _ d
    simp [sys_msleep, sys_now, sys_waitid, q1, s1]
  · exact s4 _ _
  · exact le_trans q3 n1
  · exact le_trans n2 (s2 _ _)
  · exact s3 _ _
  · intro X
    have x1 := X.waitid_clock m.world m.errno hI
    have x2 := X.now_val _ q4
    have x3 := X.now_clock _ q4
    have x4 := fun e d => X.msleep_clock _ e d n3
    refine ⟨?_, ?_⟩
    · rw [ht, x2, x1]
    · exact (x4 _ _).trans (by rw [x3, x1])

/-- A pass through the loop body with the `timeout` flag set, for a child that
never exits: one query, then the function returns -1 with the `result` cell
untouched. -/
theorem wait_body_timed_out (S : Sys W) (clock : W → Int) (I : W → Prop) (pid : Int)
    (H : NeverExits S clock I pid) (p : Nat) (result : Option Int) (D timeout : Int)
    (m : Machine W) (hp : m.heap p = some ⟨pid⟩) (hI : I m.world) (hto : timeout ≠ 0) :
    ∃ sp ss m',
      dill_proc_wait_body S p result D timeout m = Pass.leave (Outcome.ret (-1, result) m') ∧
      m'.trace = m.trace ++ [Event.waitid pid 0 sp ss] ∧
      m'.errno = (S.waitid m.world m.errno pid).1.errno ∧
      (ExactClock S clock I pid → clock m'.world = clock m.world) := by
  have q1 := H.waitid_rc m.world m.errno hI
  have q2 := H.waitid_running m.world m.errno hI
  have e1 : (sys_waitid S pid m).1.rc = 0 := q1
  have e2 : ¬ (sys_waitid S pid m).1.si_pid > 0 := not_lt.mpr q2
  refine ⟨(sys_waitid S pid m).1.si_pid, (sys_waitid S pid m).1.si_status,
    (sys_waitid S pid m).2, ?_, ?_, rfl, ?_⟩
  · simp [dill_proc_wait_body, hp, e1, e2, hto]
  · simp [sys_waitid, q1]
  · intro X
    exact X.waitid_clock m.world m.errno hI

/-- The loop on a child that never exits, started with the flag clear while
fewer than `k + 1` slices of 100 separate the clock from the deadline `D`:
with `k + 2` units of fuel or more it returns -1 after at most `k + 2` queries,
no sleep is asked to wake after `D`, and when the deadline is less than one
slice away there are two queries and one sleep, until `D`. -/
theorem wait_loop_never_exits (S : Sys W) (clock : W → Int) (I : W → Prop) (pid : Int)
    (H : NeverExits S clock I pid) (p : Nat) (result : Option Int) (D : Int) (hD : D ≠ -1) :
    ∀ (k fuel : Nat) (m : Machine W), m.heap p = some ⟨pid⟩ → I m.world →
      D - clock m.world < 100 * ((k : Int) + 1) → k + 2 ≤ fuel →
      ∃ m' evs,
        dill_proc_wait_loop S p result D fuel 0 m = Outcome.ret (-1, result) m' ∧
        m'.trace = m.trace ++ evs ∧
        queries evs ≤ k + 2 ∧
        (∀ d ∈ sleeps evs, d ≤ D) ∧
        (D < clock m.world + 100 → queries evs = 2 ∧ sleeps evs = [D]) := by
  intro k
  induction k with
  | zero =>
    intro fuel m hp hI hlt hfuel
    obtain ⟨f, rfl⟩ : ∃ f, fuel = f + 2 := ⟨fuel - 2, by omega⟩
    obtain ⟨sp, ss, t, e, m1, b1, b2, b3, b4, b5, b6, b7, _⟩ :=
      wait_body_running S clock I pid H p result D m hp hI
    have hc : D ≠ -1 ∧ D < t + 100 := ⟨hD, by push_cast at hlt; omega⟩
    rw [if_pos hc] at b1 b2
    obtain ⟨sp', ss', m2, c1, c2, _⟩ :=
      wait_body_timed_out S clock I pid H p result D 1 m1 (b3 ▸ hp) b4 (by decide)
    refine ⟨m2, [Event.waitid pid 0 sp ss, Event.now t, Event.msleep D 0 e,
      Event.waitid pid 0 sp' ss'], ?_, ?_, ?_, ?_, ?_⟩
    · rw [dill_proc_wait_loop, b1]
      dsimp only
      rw [dill_proc_wait_loop, c1]
    · rw [c2, b2]; simp
    · simp [queries]
    · simp [sleeps]
    · intro _; simp [queries, sleeps]
  | succ k ih =>
    intro fuel m hp hI hlt hfuel
    obtain ⟨f, rfl⟩ : ∃ f, fuel = f + 2 := ⟨fuel - 2, by omega⟩
    obtain ⟨sp, ss, t, e, m1, b1, b2, b3, b4, b5, b6, b7, _⟩ :=
      wait_body_running S clock I pid H p result D m hp hI
    by_cases hc : D ≠ -1 ∧ D < t + 100
    · rw [if_pos hc] at b1 b2
      obtain ⟨sp', ss', m2, c1, c2, _⟩ :=
        wait_body_timed_out S clock I pid H p result D 1 m1 (b3 ▸ hp) b4 (by decide)
      refine ⟨m2, [Event.waitid pid 0 sp ss, Event.now t, Event.msleep D 0 e,
        Event.waitid pid 0 sp' ss'], ?_, ?_, ?_, ?_, ?_⟩
      · rw [dill_proc_wait_loop, b1]
        dsimp only
        rw [dill_proc_wait_loop, c1]
      · rw [c2, b2]; simp
      · simp [queries]
      · simp [sleeps]
      · intro _; simp [queries, sleeps]
    · rw [if_neg hc] at b1 b2 b7
      have hge : t + 100 ≤ D := by
        by_contra hlt'
        exact hc ⟨hD, not_le.mp hlt'⟩
      obtain ⟨m', evs, i1, i2, i3, i4, _⟩ := ih (f + 1) m1 (b3 ▸ hp) b4
        (by push_cast at hlt ⊢; omega) (by omega)
      refine ⟨m', Event.waitid pid 0 sp ss :: Event.now t :: Event.msleep (t + 100) 0 e :: evs,
        ?_, ?_, ?_, ?_, ?_⟩
      · rw [dill_proc_wait_loop, b1]
        exact i1
      · rw [i2, b2]; simp
      · simp [queries]; omega
      · intro d hd
        simp [sleeps] at hd
        rcases hd with rfl | hd
        · exact hge
        · exact i4 d hd
      · intro hnear
        omega

/-- With sleeps that wake exactly on time on a clock that only sleeping
advances, a wait whose deadline is 150 after the clock at entry takes three
queries and returns -1 with the clock at the deadline. -/
theorem wait_loop_exact_150 (S : Sys W) (clock : W → Int) (I : W → Prop) (pid : Int)
    (H : NeverExits S clock I pid) (X : ExactClock S clock I pid) (p : Nat)
    (result : Option Int) (D : Int) (hD : D ≠ -1) (fuel : Nat) (m : Machine W)
    (hp : m.heap p = some ⟨pid⟩) (hI : I m.world) (h150 : D = clock m.world + 150)
    (hfuel : 3 ≤ fuel) :
    ∃ m' evs,
      dill_proc_wait_loop S p result D fuel 0 m = Outcome.ret (-1, result) m' ∧
      m'.trace = m.trace ++ evs ∧ queries evs = 3 ∧ clock m'.world = clock m.world + 150 := by
  obtain ⟨f, rfl⟩ : ∃ f, fuel = f + 3 := ⟨fuel - 3, by omega⟩
  obtain ⟨sp, ss, t, e, m1, b1, b2, b3, b4, _, _, _, b8⟩ :=
    wait_body_running S clock I pid H p result D m hp hI
  obtain ⟨bt, bc⟩ := b8 X
  have hc : ¬ (D ≠ -1 ∧ D < t + 100) := by
    intro hc; have := hc.2; omega
  rw [if_neg hc] at b1 b2 bc
  have hm1 : clock m1.world = clock m.world + 100 := by
    rw [bc, bt]; exact max_eq_right (by omega)
  obtain ⟨sp2, ss2, t2, e2, m2, c1, c2, c3, c4, _, _, _, c8⟩ :=
    wait_body_running S clock I pid H p result D m1 (b3 ▸ hp) b4
  obtain ⟨ct, cc⟩ := c8 X
  have hc2 : D ≠ -1 ∧ D < t2 + 100 := ⟨hD, by omega⟩
  rw [if_pos hc2] at c1 c2 cc
  have hm2 : clock m2.world = clock m.world + 150 := by
    rw [cc, hm1, h150]; exact max_eq_right (by omega)
  obtain ⟨sp3, ss3, m3, d1, d2, _, d4⟩ :=
    wait_body_timed_out S clock I pid H p result D 1 m2 (c3 ▸ b3 ▸ hp) c4 (by decide)
  refine ⟨m3, [Event.waitid pid 0 sp ss, Event.now t, Event.msleep (t + 100) 0 e,
    Event.waitid pid 0 sp2 ss2, Event.now t2, Event.msleep D 0 e2,
    Event.waitid pid 0 sp3 ss3], ?_, ?_, ?_, ?_⟩
  · rw [dill_proc_wait_loop, b1]
    dsimp only
    rw [dill_proc_wait_loop, c1]
    dsimp only
    rw [dill_proc_wait_loop, d1]
  · rw [d2, c2, b2]; simp
  · simp [queries]
  · rw [d4 X, hm2]

/-- In the reference world a running child without an exit ahead is seen
running. -/
theorem Posix.view_idle (pid : Int) (w : Posix) (hw : Posix.idle pid w) :
    w.view pid = some (PState.running none) := by
  simp [Posix.view, hw.2]

/-- The reference world, restricted to the worlds where child `pid` runs for
ever and the task is never cancelled, meets the assumptions `NeverExits`. -/
theorem posix_never_exits (pid : Int) : NeverExits posix Posix.clock (Posix.idle pid) pid where
  waitid_rc := fun w e hw => by
    simp [posix, Posix.waitid, Posix.view_idle pid w hw]
  waitid_running := fun w e hw => by
    simp [posix, Posix.waitid, Posix.view_idle pid w hw]
  waitid_clock := fun w e hw => by
    simp [posix, Posix.waitid, Posix.view_idle pid w hw]
  waitid_inv := fun w e hw => by
    simpa [posix, Posix.waitid, Posix.view_idle pid w hw] using hw
  now_lo := fun w _ => le_refl _
  now_hi := fun w _ => le_refl _
  now_inv := fun w hw => hw
  msleep_rc := fun w e d hw => by
    simp [posix, Posix.msleep, hw.1]
  msleep_clock := fun w e d hw => by
    simp [posix, Posix.msleep, hw.1]
  msleep_wake := fun w e d hw => by
    simp [posix, Posix.msleep, hw.1]
  msleep_inv := fun w e d hw => by
    simpa [posix, Posix.msleep, hw.1, Posix.idle] using hw

/-- On the same worlds the reference world meets `ExactClock`. -/
theorem posix_exact_clock (pid : Int) : ExactClock posix Posix.clock (Posix.idle pid) pid where
  waitid_clock := fun w e hw => by
    simp [posix, Posix.waitid, Posix.view_idle pid w hw]
  now_val := fun w _ => rfl
  now_clock := fun w _ => rfl
  msleep_clock := fun w e d hw => by
    simp [posix, Posix.msleep, hw.1]

/-- C9: for a child that never exits, a task that is never cancelled and a clock
that never runs backwards (`NeverExits`), a deadline `D` other than -1 and a
start time `t0` not after the clock at entry: given `floor(max(D - t0, 0) / 100)
+ 2` units of fuel or more, `dill_proc_wait` returns -1 with the `result` cell
untouched, after at most that many status queries, and no sleep it asks for
has a wake time after `D`.  When the deadline is already past (`D < t0`) there
are exactly two queries and one sleep.  When moreover sleeps wake exactly on
time (`ExactClock`), the clock at entry is `t0` and `D = t0 + 150`, there are
exactly three queries and the clock on return is `t0 + 150`. -/
theorem dill_proc_wait_never_exits (S : Sys W) (clock : W → Int) (I : W → Prop)
    (pid : Int) (h : Int) (p : Nat) (result : Option Int) (D t0 : Int) (fuel : Nat)
    (m : Machine W) (H : NeverExits S clock I pid)
    (hh : hdata m h = some p) (hp : m.heap p = some ⟨pid⟩) (hI : I m.world)
    (ht0 : t0 ≤ clock m.world) (hD : D ≠ -1)
    (hfuel : (max (D - t0) 0 / 100).toNat + 2 ≤ fuel) :
    ∃ m' evs,
      dill_proc_wait S fuel h result D m = Outcome.ret (-1, result) m' ∧
      m'.trace = m.trace ++ evs ∧
      queries evs ≤ (max (D - t0) 0 / 100).toNat + 2 ∧
      (∀ d ∈ sleeps evs, d ≤ D) ∧
      (D < t0 → queries evs = 2 ∧ (sleeps evs).length = 1) ∧
      (ExactClock S clock I pid → clock m.world = t0 → D = t0 + 150 →
        queries evs = 3 ∧ clock m'.world = t0 + 150) := by
  obtain ⟨m', evs, r1, r2, r3, r4, r5⟩ :=
    wait_loop_never_exits S clock I pid H p result D hD (max (D - t0) 0 / 100).toNat fuel m
      hp hI (by omega) hfuel
  refine ⟨m', evs, ?_, r2, r3, r4, ?_, ?_⟩
  · simp only [dill_proc_wait, hh]
    exact r1
  · intro hpast
    obtain ⟨a, b⟩ := r5 (by omega)
    exact ⟨a, by rw [b]; rfl⟩
  · intro X hc h150
    have hf3 : 3 ≤ fuel := by
      have : (max (D - t0) 0 / 100).toNat = 1 := by
        rw [h150]; simp
      omega
    obtain ⟨m'', evs'', x1, x2, x3, x4⟩ :=
      wait_loop_exact_150 S clock I pid H X p result D hD fuel m hp hI (by omega) hf3
    have hm : m' = m'' := by
      have := r1.symm.trans x1
      injection this with _ hm
    subst hm
    have he : evs = evs'' := List.append_cancel_left (r2.symm.trans x2)
    subst he
    exact ⟨x3, by rw [x4, hc]⟩

/-- Witness for C9: child 4242 runs for ever in the reference world, the clock
is 7 at entry.  With the deadline 157 (150 ahead) three units of fuel are
enough, there are three queries and the clock is 157 on return; with the
deadline 3 (already past) there are two queries and one sleep. -/
theorem dill_proc_wait_never_exits_witness :
    (∃ m' evs,
      dill_proc_wait posix 3 0 (some 0) 157
          (owner (world0 7 none) (some (PState.running none)) 0)
        = Outcome.ret (-1, some 0) m' ∧
      m'.trace = evs ∧ (∀ d ∈ sleeps evs, d ≤ 157) ∧ queries evs = 3 ∧
      m'.world.clock = 157) ∧
    (∃ m' evs,
      dill_proc_wait posix 2 0 (some 0) 3
          (owner (world0 7 none) (some (PState.running none)) 0)
        = Outcome.ret (-1, some 0) m' ∧
      m'.trace = evs ∧ queries evs = 2 ∧ (sleeps evs).length = 1) := by
  refine ⟨?_, ?_⟩
  · obtain ⟨m', evs, h1, h2, _, h4, _, h6⟩ :=
      dill_proc_wait_never_exits posix Posix.clock (Posix.idle 4242) 4242 0 1 (some 0) 157 7 3
        (owner (world0 7 none) (some (PState.running none)) 0)
        (posix_never_exits 4242) rfl rfl ⟨rfl, rfl⟩ (by decide) (by decide) (by decide)
    obtain ⟨h7, h8⟩ := h6 (posix_exact_clock 4242) rfl rfl
    exact ⟨m', evs, h1, h2, h4, h7, h8⟩
  · obtain ⟨m', evs, h1, h2, _, _, h5, _⟩ :=
      dill_proc_wait_never_exits posix Posix.clock (Posix.idle 4242) 4242 0 1 (some 0) 3 7 2
        (owner (world0 7 none) (some (PState.running none)) 0)
        (posix_never_exits 4242) rfl rfl ⟨rfl, rfl⟩ (by decide) (by decide) (by decide)
    obtain ⟨h7, h8⟩ := h5 (by decide)
    exact ⟨m', evs, h1, h2, h7, h8⟩

/-! ### `dill_proc_wait`: the wake time and the flag -/

/-- A pass through the loop body with the flag clear whose status query
succeeds and sees no exit: the calls are that query, `now()` with value `t`, and
`msleep` with the wake time `min(t + 100, deadline)` (`t + 100` when the
deadline is -1); when the sleep returns 0 the loop goes round again, with the
flag set exactly when `deadline ≠ -1` and `deadline < t + 100`. -/
theorem wait_body_sleeps (S : Sys W) (p : Nat) (result : Option Int) (deadline : Int)
    (proc : dill_proc) (m : Machine W) (hp : m.heap p = some proc)
    (hrc : (S.waitid m.world m.errno proc.pid).1.rc = 0)
    (hrun : (S.waitid m.world m.errno proc.pid).1.si_pid ≤ 0) :
    ∃ sp ss rc e m1,
      (dill_proc_wait_body S p result deadline 0 m).machine = m1 ∧
      m1.trace = m.trace ++ [Event.waitid proc.pid 0 sp ss,
        Event.now (S.now (S.waitid m.world m.errno proc.pid).2).1,
        Event.msleep
          (if deadline = -1 then (S.now (S.waitid m.world m.errno proc.pid).2).1 + 100
            else min ((S.now (S.waitid m.world m.errno proc.pid).2).1 + 100) deadline) rc e] ∧
      m1.heap = m.heap ∧
      (rc = 0 → dill_proc_wait_body S p result deadline 0 m
          = Pass.again
              (if deadline ≠ -1 ∧ deadline < (S.now (S.waitid m.world m.errno proc.pid).2).1 + 100
                then 1 else 0) m1) := by
  have e1 : (sys_waitid S proc.pid m).1.rc = 0 := hrc
  have e2 : ¬ (sys_waitid S proc.pid m).1.si_pid > 0 := not_lt.mpr hrun
  have ht : (sys_now S (sys_waitid S proc.pid m).2).1
      = (S.now (S.waitid m.world m.errno proc.pid).2).1 := rfl
  have hw : (if decide (deadline ≠ -1 ∧
        deadline < (S.now (S.waitid m.world m.errno proc.pid).2).1 + 100) = true
        then deadline else (S.now (S.waitid m.world m.errno proc.pid).2).1 + 100)
      = (if deadline = -1 then (S.now (S.waitid m.world m.errno proc.pid).2).1 + 100
          else min ((S.now (S.waitid m.world m.errno proc.pid).2).1 + 100) deadline) := by
    by_cases h1 : deadline = -1
    · simp [h1]
    · by_cases h2 : deadline < (S.now (S.waitid m.world m.errno proc.pid).2).1 + 100
      · simp [h1, h2, min_eq_right (le_of_lt h2)]
      · simp [h1, h2, min_eq_left (not_lt.mp h2)]
  have hbody : dill_proc_wait_body S p result deadline 0 m =
      if (sys_msleep S
            (if decide (deadline ≠ -1 ∧
                deadline < (S.now (S.waitid m.world m.errno proc.pid).2).1 + 100) = true
              then deadline else (S.now (S.waitid m.world m.errno proc.pid).2).1 + 100)
            (sys_now S (sys_waitid S proc.pid m).2).2).1.rc = 0
      then Pass.again
          (if decide (deadline ≠ -1 ∧
              deadline < (S.now (S.waitid m.world m.errno proc.pid).2).1 + 100) = true
            then 1 else 0)
          (sys_msleep S
            (if decide (deadline ≠ -1 ∧
                deadline < (S.now (S.waitid m.world m.errno proc.pid).2).1 + 100) = true
              then deadline else (S.now (S.waitid m.world m.errno proc.pid).2).1 + 100)
            (sys_now S (sys_waitid S proc.pid m).2).2).2
      else if (sys_msleep S
            (if decide (deadline ≠ -1 ∧
                deadline < (S.now (S.waitid m.world m.errno proc.pid).2).1 + 100) = true
              then deadline else (S.now (S.waitid m.world m.errno proc.pid).2).1 + 100)
            (sys_now S (sys_waitid S proc.pid m).2).2).1.errno ≠ ECANCELED
      then Pass.leave (Outcome.abort (sys_msleep S
            (if decide (deadline ≠ -1 ∧
                deadline < (S.now (S.waitid m.world m.errno proc.pid).2).1 + 100) = true
              then deadline else (S.now (S.waitid m.world m.errno proc.pid).2).1 + 100)
            (sys_now S (sys_waitid S proc.pid m).2).2).2)
      else Pass.leave (Outcome.ret (-1, result) (sys_msleep S
            (if decide (deadline ≠ -1 ∧
                deadline < (S.now (S.waitid m.world m.errno proc.pid).2).1 + 100) = true
              then deadline else (S.now (S.waitid m.world m.errno proc.pid).2).1 + 100)
            (sys_now S (sys_waitid S proc.pid m).2).2).2) := by
    simp only [dill_proc_wait_body, hp, e1, e2, ht]
    simp
  rw [hbody, hw]
  refine ⟨(sys_waitid S proc.pid m).1.si_pid, (sys_waitid S proc.pid m).1.si_status,
    (sys_msleep S
      (if deadline = -1 then (S.now (S.waitid m.world m.errno proc.pid).2).1 + 100
        else min ((S.now (S.waitid m.world m.errno proc.pid).2).1 + 100) deadline)
      (sys_now S (sys_waitid S proc.pid m).2).2).1.rc,
    (sys_msleep S
      (if deadline = -1 then (S.now (S.waitid m.world m.errno proc.pid).2).1 + 100
        else min ((S.now (S.waitid m.world m.errno proc.pid).2).1 + 100) deadline)
      (sys_now S (sys_waitid S proc.pid m).2).2).1.errno,
    (sys_msleep S
      (if deadline = -1 then (S.now (S.waitid m.world m.errno proc.pid).2).1 + 100
        else min ((S.now (S.waitid m.world m.errno proc.pid).2).1 + 100) deadline)
      (sys_now S (sys_waitid S proc.pid m).2).2).2, ?_, ?_, rfl, ?_⟩
  · split_ifs <;> rfl
  · simp [sys_msleep, sys_now, sys_waitid, hrc]
  · intro h0
    rw [if_pos h0]
    simp

/-- A pass through the loop body with the flag set whose status query succeeds
and sees no exit: that query is the only call, and the function returns -1 with
the `result` cell and `errno` as the query left them. -/
theorem wait_body_flag_set (S : Sys W) (p : Nat) (result : Option Int) (deadline timeout : Int)
    (proc : dill_proc) (m : Machine W) (hp : m.heap p = some proc) (hto : timeout ≠ 0)
    (hrc : (S.waitid m.world m.errno proc.pid).1.rc = 0)
    (hrun : (S.waitid m.world m.errno proc.pid).1.si_pid ≤ 0) :
    ∃ sp ss m2,
      dill_proc_wait_body S p result deadline timeout m
        = Pass.leave (Outcome.ret (-1, result) m2) ∧
      m2.trace = m.trace ++ [Event.waitid proc.pid 0 sp ss] ∧
      m2.errno = (S.waitid m.world m.errno proc.pid).1.errno := by
  have e1 : (sys_waitid S proc.pid m).1.rc = 0 := hrc
  have e2 : ¬ (sys_waitid S proc.pid m).1.si_pid > 0 := not_lt.mpr hrun
  refine ⟨(sys_waitid S proc.pid m).1.si_pid, (sys_waitid S proc.pid m).1.si_status,
    (sys_waitid S proc.pid m).2, ?_, ?_, rfl⟩
  · simp [dill_proc_wait_body, hp, e1, e2, hto]
  · simp [sys_waitid, hrc]

/-- C10 (amended): take a pass through the loop body, with the flag clear, whose
status query succeeds and sees no exit, and let `t` be the value of `now()`.
The pass calls `msleep` with the wake time `min(t + 100, deadline)`, or
`t + 100` when the deadline is -1, and these three calls are all it does.  When
the sleep elapses (returns 0) the loop goes round again with the flag set if
and only if `deadline ≠ -1` and `deadline < t + 100`, strictly.  In that
case, when the next query succeeds and sees no exit, the wait returns -1 right
after that query, with the `result` cell untouched.  In the boundary case
`deadline = t + 100` the flag stays clear, and when the next query succeeds and
sees no exit the next pass calls `now()` and `msleep` again. -/
theorem dill_proc_wait_wake_time (S : Sys W) (p : Nat) (result : Option Int) (deadline : Int)
    (proc : dill_proc) (m : Machine W) (hp : m.heap p = some proc)
    (hrc : (S.waitid m.world m.errno proc.pid).1.rc = 0)
    (hrun : (S.waitid m.world m.errno proc.pid).1.si_pid ≤ 0) :
    ∃ sp ss t rc e m1,
      (dill_proc_wait_body S p result deadline 0 m).machine = m1 ∧
      t = (S.now (S.waitid m.world m.errno proc.pid).2).1 ∧
      m1.trace = m.trace ++ [Event.waitid proc.pid 0 sp ss, Event.now t,
        Event.msleep (if deadline = -1 then t + 100 else min (t + 100) deadline) rc e] ∧
      m1.heap = m.heap ∧
      (rc = 0 → dill_proc_wait_body S p result deadline 0 m
          = Pass.again (if deadline ≠ -1 ∧ deadline < t + 100 then 1 else 0) m1) ∧
      (rc = 0 → deadline ≠ -1 → deadline < t + 100 →
        (S.waitid m1.world m1.errno proc.pid).1.rc = 0 →
        (S.waitid m1.world m1.errno proc.pid).1.si_pid ≤ 0 →
        ∀ n, ∃ sp' ss' m2,
          dill_proc_wait_loop S p result deadline (n + 2) 0 m = Outcome.ret (-1, result) m2 ∧
          m2.trace = m1.trace ++ [Event.waitid proc.pid 0 sp' ss']) ∧
      (rc = 0 → deadline = t + 100 →
        (S.waitid m1.world m1.errno proc.pid).1.rc = 0 →
        (S.waitid m1.world m1.errno proc.pid).1.si_pid ≤ 0 →
        ∃ sp' ss' t' rc' e',
          (dill_proc_wait_body S p result deadline 0 m1).machine.trace = m1.trace ++
            [Event.waitid proc.pid 0 sp' ss', Event.now t',
             Event.msleep (if deadline = -1 then t' + 100 else min (t' + 100) deadline)
               rc' e']) := by
  obtain ⟨sp, ss, rc, e, m1, a1, a2, a3, a4⟩ :=
    wait_body_sleeps S p result deadline proc m hp hrc hrun
  refine ⟨sp, ss, _, rc, e, m1, a1, rfl, a2, a3, a4, ?_, ?_⟩
  · intro h0 hd hlt hrc1 hrun1 n
    have hb := a4 h0
    rw [if_pos ⟨hd, hlt⟩] at hb
    obtain ⟨sp', ss', m2, c1, c2, _⟩ :=
      wait_body_flag_set S p result deadline 1 proc m1 (a3 ▸ hp) (by decide) hrc1 hrun1
    refine ⟨sp', ss', m2, ?_, c2⟩
    rw [dill_proc_wait_loop, hb]
    dsimp only
    rw [dill_proc_wait_loop, c1]
  · intro _ _ hrc1 hrun1
    obtain ⟨sp', ss', rc', e', m2, d1, d2, _, _⟩ :=
      wait_body_sleeps S p result deadline proc m1 (a3 ▸ hp) hrc1 hrun1
    exact ⟨sp', ss', _, rc', e', d1 ▸ d2⟩

/-- Witness for C10: child 4242 runs for ever, the clock is 7 and the deadline
is 50, so the wake time is cut to 50; the sleep elapses, the next query sees no
exit, and the wait returns -1 without another sleep. -/
theorem dill_proc_wait_wake_time_witness :
    ∃ m2,
      dill_proc_wait_loop posix 1 (some 0) 50 2 0
          (owner (world0 7 none) (some (PState.running none)) 0)
        = Outcome.ret (-1, some 0) m2 ∧
      m2.trace = [Event.waitid 4242 0 0 0, Event.now 7, Event.msleep 50 0 0,
                  Event.waitid 4242 0 0 0] := by
  obtain ⟨sp, ss, t, rc, e, m1, a1, a2, a3, _, _, a6, _⟩ :=
    dill_proc_wait_wake_time posix 1 (some 0) 50 ⟨4242⟩
      (owner (world0 7 none) (some (PState.running none)) 0) rfl (by decide) (by decide)
  have ht : t = 7 := a2
  subst ht
  subst a1
  have htr : (dill_proc_wait_body posix 1 (some 0) 50 0
      (owner (world0 7 none) (some (PState.running none)) 0)).machine.trace
      = [Event.waitid 4242 0 0 0, Event.now 7, Event.msleep 50 0 0] := by decide
  rw [htr] at a3
  have a3' : [Event.waitid 4242 0 0 0, Event.now 7, Event.msleep 50 0 0]
      = [Event.waitid 4242 0 sp ss, Event.now 7, Event.msleep 50 rc e] := a3
  have hrc : rc = 0 := by
    simp at a3'
    omega
  obtain ⟨sp', ss', m2, b1, b2⟩ := a6 hrc (by decide) (by decide) (by decide) (by decide) 0
  refine ⟨m2, b1, ?_⟩
  have hm2 : m2.trace = (dill_proc_wait_loop posix 1 (some 0) 50 2 0
      (owner (world0 7 none) (some (PState.running none)) 0)).machine.trace := by
    rw [b1]; rfl
  rw [hm2]
  decide

/-- Counterexample for C10 as stated: child 4242 runs for ever, the clock is 7
and the deadline is 107, which is `now() + 100` exactly.  The first sleep has
the deadline as its wake time and elapses with the clock at 107; the next
status query sees no exit; the code does not return there: it calls `now()` and
`msleep(107)` again, and returns -1 only after a third query. -/
theorem dill_proc_wait_boundary_sleeps_again :
    (dill_proc_wait posix 10 0 (some 0) 107
        (owner (world0 7 none) (some (PState.running none)) 0)).machine.trace
      = [Event.waitid 4242 0 0 0, Event.now 7, Event.msleep 107 0 0,
         Event.waitid 4242 0 0 0, Event.now 107, Event.msleep 107 0 0,
         Event.waitid 4242 0 0 0] ∧
    (dill_proc_wait posix 10 0 (some 0) 107
        (owner (world0 7 none) (some (PState.running none)) 0)).value = some (-1, some 0) ∧
    sleeps (dill_proc_wait posix 10 0 (some 0) 107
        (owner (world0 7 none) (some (PState.running none)) 0)).machine.trace = [107, 107] ∧
    (dill_proc_wait_body posix 1 (some 0) 107 0
        (owner (world0 7 none) (some (PState.running none)) 0)).machine.world.clock = 107 := by
  decide

/-! ### Defects -/

/-- C3 (defect): handle 0 owns child 4242, which keeps running; `errno` is 0 at
entry and the deadline 3 is before the clock 7.  `dill_proc_wait` gives up
after the deadline-truncated sleep and returns -1, and `errno` is still 0 on
return, not `ETIMEDOUT`: the statement `errno == ETIMEDOUT;` compares and
stores nothing. -/
theorem dill_proc_wait_timeout_errno_not_set :
    (dill_proc_wait posix 10 0 (some 0) 3
        (owner (world0 7 none) (some (PState.running none)) 0)).value = some (-1, some 0) ∧
    (dill_proc_wait posix 10 0 (some 0) 3
        (owner (world0 7 none) (some (PState.running none)) 0)).machine.trace
      = [Event.waitid 4242 0 0 0, Event.now 7, Event.msleep 3 0 0, Event.waitid 4242 0 0 0] ∧
    (dill_proc_wait posix 10 0 (some 0) 3
        (owner (world0 7 none) (some (PState.running none)) 0)).machine.errno = 0 ∧
    (dill_proc_wait posix 10 0 (some 0) 3
        (owner (world0 7 none) (some (PState.running none)) 0)).machine.errno ≠ ETIMEDOUT := by
  decide

/-- C2 (defect): a parent spawns child 4242, which exits at time 50 with status
42.  `dill_proc_prologue` returns 0 with handle 0; `dill_proc_wait` with
deadline 5000 returns 0 with status 42, and its successful `waitid` has reaped
the child: 4242 is no child of the process any more, yet the record still
holds pid 4242.  `dill_proc_close` on the handle then calls `kill(4242,
SIGKILL)`, which fails, and the call ends in the failed assertion, with no
`waitpid` and the record not freed. -/
theorem dill_proc_close_after_wait_aborts :
    (dill_proc_prologue posix (-1) (boot (world0 0 (some (50, 42))))).value = some (0, 0) ∧
    (dill_proc_wait posix 10 0 (some 0) 5000 spawned).value = some (0, some 42) ∧
    waited.heap 1 = some ⟨4242⟩ ∧
    waited.world.children 4242 = none ∧
    (dill_proc_close posix 0 waited).aborted = true ∧
    (dill_proc_close posix 0 waited).machine.trace
      = [Event.malloc (some 1), Event.dill_handle 1 0, Event.dill_fork 4242,
         Event.waitid 4242 0 0 0, Event.now 0, Event.msleep 100 0 0,
         Event.waitid 4242 0 4242 42, Event.kill 4242 9 (-1)] ∧
    (dill_proc_close posix 0 waited).machine.heap 1 = some ⟨4242⟩ := by
  decide

end Dill
